import Mathlib

/-!
Shallow embedding of the book-catalog REST backend (Express routes for
auth and books, Mongoose-backed store). Pure state-passing model:
the Mongo `books` collection is a `List Book`, the image directory a
`List String` of filenames, the `users` collection a `List User`.
Each route handler becomes a function from the request data and the
store state to an HTTP status plus the new state, translated line by
line from `routes/books.js` and `routes/auth.js`.
-/

namespace BookApi

/-- A rating sub-document `{userId, grade}` (swagger schema in app.js). -/
structure Rating where
  userId : String
  grade : Rat
deriving DecidableEq, Repr

/-- A book document, fields as in the swagger `Book` schema of app.js
(`userId` is the owner, `ratings` the embedded rating array). -/
structure Book where
  id : String
  userId : String
  title : String
  author : String
  genre : String
  year : Int
  imageUrl : String
  ratings : List Rating
  averageRating : Rat
deriving DecidableEq, Repr

/-- `ratings.reduce((acc, cur) => acc + cur.grade, 0)` from the rating route. -/
def sumGrades (rs : List Rating) : Rat :=
  rs.foldl (fun acc cur => acc + cur.grade) 0

/-- `Book.findOne({ _id: bid })`: first document with the given id. -/
def findOne : List Book → String → Option Book
  | [], _ => none
  | b :: rest, bid => if b.id = bid then some b else findOne rest bid

/-- `Book.findOne({ _id: bid, userId: uid })` as used by the delete route. -/
def findOwned : List Book → String → String → Option Book
  | [], _, _ => none
  | b :: rest, bid, uid =>
    if b.id = bid ∧ b.userId = uid then some b else findOwned rest bid uid

/-- `book.ratings.find((r) => r.userId === uid)` from the rating route. -/
def findRatingBy : List Rating → String → Option Rating
  | [], _ => none
  | r :: rest, uid => if r.userId = uid then some r else findRatingBy rest uid

/-- `book.save()` after mutating the document found by `findOne`:
replace the first document with the same id. -/
def replaceFirst : List Book → String → Book → List Book
  | [], _, _ => []
  | b :: rest, bid, b' =>
    if b.id = bid then b' :: rest else b :: replaceFirst rest bid b'

/-- `Book.deleteOne({ _id: bid })`: remove the first document with that id. -/
def deleteOneById : List Book → String → List Book
  | [], _ => []
  | b :: rest, bid => if b.id = bid then rest else b :: deleteOneById rest bid

/-- Spec-level invariant (§3 of the spec): `averageRating` equals the
arithmetic mean of `ratings[].grade`, or `0` when `ratings` is empty. -/
abbrev ratingInvariant (b : Book) : Prop :=
  b.averageRating =
    if b.ratings.isEmpty then 0
    else sumGrades b.ratings / (b.ratings.length : Rat)

/-- The invariant for every book of the store. -/
abbrev storeInv (s : List Book) : Prop := ∀ b ∈ s, ratingInvariant b

/-- The `book` JSON payload of the create route: the fields the handler
reads from `bookDetails`. -/
structure BookDetails where
  title : String
  author : String
  genre : String
  year : Int
deriving DecidableEq, Repr

/-- `router.post("/")`: the document built and saved by the create route
(`averageRating: 0`, `ratings: []`); `bid` is the store-assigned id. -/
def createBook (uid bid : String) (d : BookDetails) (imageUrl : String) : Book :=
  { id := bid, userId := uid, title := d.title, author := d.author,
    genre := d.genre, year := d.year, imageUrl := imageUrl,
    ratings := [], averageRating := 0 }

/-- Outcome of the rating route: HTTP status, JSON body (the updated
book on success), and the store after the request. -/
structure RateResult where
  status : Nat
  body : Option Book
  store : List Book
deriving DecidableEq, Repr

/-- `router.post("/:id/rating")` translated step by step:
`rating === undefined || rating < 0 || rating > 5` gives 400;
a missing book gives 404; an existing rating by the requester gives 403;
otherwise push `{userId, grade}`, recompute the mean, save, return 200. -/
def rateBook (store : List Book) (requesterId bookId : String)
    (rating : Option Rat) : RateResult :=
  match rating with
  | none => ⟨400, none, store⟩
  | some g =>
    if g < 0 ∨ g > 5 then ⟨400, none, store⟩
    else
      match findOne store bookId with
      | none => ⟨404, none, store⟩
      | some book =>
        match findRatingBy book.ratings requesterId with
        | some _ => ⟨403, none, store⟩
        | none =>
          let newRatings := book.ratings ++ [⟨requesterId, g⟩]
          let updated := { book with
            ratings := newRatings,
            averageRating := sumGrades newRatings / (newRatings.length : Rat) }
          ⟨200, some updated, replaceFirst store book.id updated⟩

/-- An update document for `Book.updateOne`: the `$set` fields Mongoose
derives from the plain object `{...bookData}` (any schema field may
appear, including `ratings` and `averageRating`). -/
structure UpdateDoc where
  title : Option String := none
  author : Option String := none
  genre : Option String := none
  year : Option Int := none
  imageUrl : Option String := none
  ratings : Option (List Rating) := none
  averageRating : Option Rat := none
deriving DecidableEq, Repr

/-- Apply an update document to a book: each supplied field overwrites
the stored one, absent fields are kept. -/
def applyUpdate (b : Book) (d : UpdateDoc) : Book :=
  { b with
    title := d.title.getD b.title,
    author := d.author.getD b.author,
    genre := d.genre.getD b.genre,
    year := d.year.getD b.year,
    imageUrl := d.imageUrl.getD b.imageUrl,
    ratings := d.ratings.getD b.ratings,
    averageRating := d.averageRating.getD b.averageRating }

/-- `Book.updateOne({ _id: bid, userId: uid }, { ...doc })`: update the
first matching document; the returned number is `nModified`, the count
of documents actually changed (0 when nothing matched or the update
left the document identical). -/
def updateOne : List Book → String → String → UpdateDoc → Nat × List Book
  | [], _, _, _ => (0, [])
  | b :: rest, bid, uid, doc =>
    if b.id = bid ∧ b.userId = uid then
      let b' := applyUpdate b doc
      if b' = b then (0, b :: rest) else (1, b' :: rest)
    else
      let r := updateOne rest bid uid doc
      (r.1, b :: r.2)

/-- Outcome of the update route: HTTP status and the store afterwards. -/
structure PutResult where
  status : Nat
  store : List Book
deriving DecidableEq, Repr

/-- `router.put("/:id")` translated step by step. With a file: parse the
`book` field (parse failure or image-processing failure gives 400) and
override `imageUrl` with the freshly stored image's URL. Without a
file: parse the `book` field, falling back to the raw request body on
parse failure. Then `updateOne` filtered by `{_id, userId}`;
`nModified === 0` gives 403, otherwise 200. `parsedBook` is the result
of `JSON.parse(req.body.book)` (`none` on parse failure), `rawBody`
the update document read off `req.body`. -/
def putBook (store : List Book) (requesterId bookId : String)
    (hasFile imgProcessFails : Bool) (parsedBook : Option UpdateDoc)
    (rawBody : UpdateDoc) (newImageUrl : String) : PutResult :=
  if hasFile then
    match parsedBook with
    | none => ⟨400, store⟩
    | some d =>
      if imgProcessFails then ⟨400, store⟩
      else
        let r := updateOne store bookId requesterId { d with imageUrl := some newImageUrl }
        if r.1 = 0 then ⟨403, r.2⟩ else ⟨200, r.2⟩
  else
    let r := updateOne store bookId requesterId (parsedBook.getD rawBody)
    if r.1 = 0 then ⟨403, r.2⟩ else ⟨200, r.2⟩

/-- Whether the first list starts with the second one. -/
def startsWithChars : List Char → List Char → Bool
  | _, [] => true
  | [], _ :: _ => false
  | c :: cs, d :: ds => c == d && startsWithChars cs ds

/-- Index of the first occurrence of `sep` in the list (JS `indexOf`);
`sep` is nonempty in every use here. -/
def occurrenceIdx (sep : List Char) : List Char → Option Nat
  | [] => if startsWithChars [] sep then some 0 else none
  | c :: cs =>
    if startsWithChars (c :: cs) sep then some 0
    else (occurrenceIdx sep cs).map (· + 1)

/-- `book.imageUrl ? book.imageUrl.split("/images/")[1] : null`, and the
`if (filename)` guard of the delete route: `""` and `undefined` are
both falsy. `split(sep)[1]` is the chunk between the first and second
occurrence of `sep` (to the end when there is no second occurrence),
and is undefined when `sep` does not occur at all. -/
def imageFilename (imageUrl : String) : Option String :=
  if imageUrl = "" then none
  else
    let sep := "/images/".toList
    let s := imageUrl.toList
    match occurrenceIdx sep s with
    | none => none
    | some i =>
      let rest := s.drop (i + sep.length)
      let chunk :=
        match occurrenceIdx sep rest with
        | none => rest
        | some j => rest.take j
      if chunk = [] then none else some (String.mk chunk)

/-- Outcome of the delete route: HTTP status, the book store and the
image directory afterwards. -/
structure DeleteResult where
  status : Nat
  store : List Book
  files : List String
deriving DecidableEq, Repr

/-- `router.delete("/:id")` translated step by step: a store/transaction
failure aborts everything with 500; no owned match gives 403;
otherwise `fs.unlink` the image best-effort (`imgUnlinkFails` models
the unlink callback receiving an error, which is only logged), delete
the record, commit, 200. -/
def deleteBook (store : List Book) (files : List String)
    (requesterId bookId : String) (txFails imgUnlinkFails : Bool) : DeleteResult :=
  if txFails then ⟨500, store, files⟩
  else
    match findOwned store bookId requesterId with
    | none => ⟨403, store, files⟩
    | some book =>
      let files' :=
        match imageFilename book.imageUrl with
        | none => files
        | some f => if imgUnlinkFails then files else files.erase f
      ⟨200, deleteOneById store bookId, files'⟩

/-- `router.get("/:id")`: 404 when `findOne` returns nothing. -/
def getBook (store : List Book) (bookId : String) : Nat × Option Book :=
  match findOne store bookId with
  | none => (404, none)
  | some b => (200, some b)

/-- Descending insertion by `averageRating`, modelling
`.sort({ averageRating: -1 })`. -/
def insertByRatingDesc (b : Book) : List Book → List Book
  | [] => [b]
  | c :: cs =>
    if c.averageRating < b.averageRating then b :: c :: cs
    else c :: insertByRatingDesc b cs

/-- `Book.find().sort({ averageRating: -1 })`. -/
def sortByRatingDesc (store : List Book) : List Book :=
  store.foldr insertByRatingDesc []

/-- `router.get("/bestrating")`: sort by `averageRating` descending and
`.limit(n)` (the route uses `n = 3`). -/
def topRated (store : List Book) (n : Nat) : List Book :=
  (sortByRatingDesc store).take n

/-- A user document of `routes/auth.js` (`password` is the bcrypt hash). -/
structure User where
  id : String
  email : String
  password : String
deriving DecidableEq, Repr

/-- `User.findOne({ email })`. -/
def findUser : List User → String → Option User
  | [], _ => none
  | u :: rest, email => if u.email = email then some u else findUser rest email

/-- The JWT payload signed by the login route: `{userId}` with
`expiresIn: "24h"` from issuance time `iat`. -/
structure Token where
  userId : String
  iat : Nat
  exp : Nat
deriving DecidableEq, Repr

/-- `jwt.sign({ userId }, secret, { expiresIn: "24h" })` at time `now`
(seconds): expiry 24 hours after issuance. -/
def jwtSign (uid : String) (now : Nat) : Token :=
  ⟨uid, now, now + 24 * 60 * 60⟩

/-- JSON body of a login response. -/
inductive LoginBody where
  | message (s : String)
  | success (userId : String) (token : Token)
deriving DecidableEq, Repr

/-- `router.post("/login")` translated step by step: unknown email gives
401 "User not found!", a failing `bcrypt.compare` gives 401
"Incorrect password!", otherwise 200 with the userId and a signed
token. `bcryptCompare password hash` models `bcrypt.compare`. -/
def login (users : List User) (bcryptCompare : String → String → Bool)
    (email password : String) (now : Nat) : Nat × LoginBody :=
  match findUser users email with
  | none => (401, .message "User not found!")
  | some user =>
    if bcryptCompare password user.password then
      (200, .success user.id (jwtSign user.id now))
    else
      (401, .message "Incorrect password!")

/-- The document produced by a successful rating request: the new entry
appended and `averageRating` recomputed as the mean of all grades,
exactly as the rating route mutates the fetched book. -/
def updatedBook (b : Book) (requesterId : String) (g : Rat) : Book :=
  let newRatings := b.ratings ++ [⟨requesterId, g⟩]
  { b with
    ratings := newRatings,
    averageRating := sumGrades newRatings / (newRatings.length : Rat) }

/-- A concrete stored book used by the witnesses: owned by `u0`, already
rated once by `u1`, with a stored cover image `f.jpg`. -/
def sampleRatedBook : Book :=
  { id := "b1", userId := "u0", title := "t", author := "a", genre := "g",
    year := 2000, imageUrl := "http://h/images/f.jpg",
    ratings := [⟨"u1", 4⟩], averageRating := 4 }

/-! ## Helper lemmas about the store primitives -/

theorem findOne_eq_none {s : List Book} {bid : String}
    (h : ∀ b ∈ s, b.id ≠ bid) : findOne s bid = none := by
  induction s with
  | nil => rfl
  | cons b rest ih =>
    have hb : b.id ≠ bid := h b (by simp)
    simp only [findOne, hb, if_false]
    exact ih fun c hc => h c (by simp [hc])

theorem findOwned_eq_none {s : List Book} {bid uid : String}
    (h : ∀ b ∈ s, ¬(b.id = bid ∧ b.userId = uid)) :
    findOwned s bid uid = none := by
  induction s with
  | nil => rfl
  | cons b rest ih =>
    have hb := h b (by simp)
    simp only [findOwned, hb, if_false]
    exact ih fun c hc => h c (by simp [hc])

theorem findRatingBy_eq_none {rs : List Rating} {uid : String}
    (h : ∀ r ∈ rs, r.userId ≠ uid) : findRatingBy rs uid = none := by
  induction rs with
  | nil => rfl
  | cons r rest ih =>
    have hr : r.userId ≠ uid := h r (by simp)
    simp only [findRatingBy, hr, if_false]
    exact ih fun c hc => h c (by simp [hc])

theorem findRatingBy_isSome {rs : List Rating} {uid : String}
    (h : ∃ r ∈ rs, r.userId = uid) : ∃ x, findRatingBy rs uid = some x := by
  induction rs with
  | nil => simp at h
  | cons r rest ih =>
    by_cases hr : r.userId = uid
    · exact ⟨r, by simp [findRatingBy, hr]⟩
    · simp only [findRatingBy, hr, if_false]
      rcases h with ⟨x, hx, hxu⟩
      rcases List.mem_cons.1 hx with rfl | hx2
      · exact absurd hxu hr
      · exact ih ⟨x, hx2, hxu⟩

theorem mem_replaceFirst {s : List Book} {bid : String} {b' x : Book}
    (hx : x ∈ replaceFirst s bid b') : x = b' ∨ x ∈ s := by
  induction s with
  | nil => simp [replaceFirst] at hx
  | cons b rest ih =>
    by_cases hb : b.id = bid
    · simp only [replaceFirst, hb, if_true] at hx
      rcases List.mem_cons.1 hx with rfl | hx2
      · exact Or.inl rfl
      · exact Or.inr (by simp [hx2])
    · simp only [replaceFirst, hb, if_false] at hx
      rcases List.mem_cons.1 hx with rfl | hx2
      · exact Or.inr (by simp)
      · rcases ih hx2 with h2 | h2
        · exact Or.inl h2
        · exact Or.inr (by simp [h2])

theorem updateOne_no_match {s : List Book} {bid uid : String} {doc : UpdateDoc}
    (h : ∀ b ∈ s, ¬(b.id = bid ∧ b.userId = uid)) :
    updateOne s bid uid doc = (0, s) := by
  induction s with
  | nil => rfl
  | cons b rest ih =>
    have hb := h b (by simp)
    simp only [updateOne, hb, if_false]
    rw [ih fun c hc => h c (by simp [hc])]

theorem mem_updateOne_snd {s : List Book} {bid uid : String} {doc : UpdateDoc} {x : Book}
    (hx : x ∈ (updateOne s bid uid doc).2) :
    x ∈ s ∨ ∃ b ∈ s, x = applyUpdate b doc := by
  induction s with
  | nil => simp [updateOne] at hx
  | cons b rest ih =>
    by_cases hb : b.id = bid ∧ b.userId = uid
    · simp only [updateOne, hb, if_true] at hx
      by_cases heq : applyUpdate b doc = b
      · simp only [heq, if_true] at hx
        exact Or.inl hx
      · simp only [heq, if_false] at hx
        rcases List.mem_cons.1 hx with rfl | hx2
        · exact Or.inr ⟨b, by simp, rfl⟩
        · exact Or.inl (by simp [hx2])
    · simp only [updateOne, hb, if_false] at hx
      rcases List.mem_cons.1 hx with rfl | hx2
      · exact Or.inl (by simp)
      · rcases ih hx2 with h2 | ⟨c, hc, hc2⟩
        · exact Or.inl (by simp [h2])
        · exact Or.inr ⟨c, by simp [hc], hc2⟩

theorem applyUpdate_ratingInvariant {b : Book} {doc : UpdateDoc}
    (h : ratingInvariant b) (h1 : doc.ratings = none) (h2 : doc.averageRating = none) :
    ratingInvariant (applyUpdate b doc) := by
  simp only [ratingInvariant, applyUpdate, h1, h2, Option.getD_none] at h ⊢
  exact h

theorem findOne_deleteOneById {s : List Book} {bid : String}
    (h : (s.map Book.id).Nodup) :
    findOne (deleteOneById s bid) bid = none := by
  induction s with
  | nil => rfl
  | cons b rest ih =>
    rw [List.map_cons, List.nodup_cons] at h
    by_cases hb : b.id = bid
    · simp only [deleteOneById, hb, if_true]
      exact findOne_eq_none fun c hc hceq =>
        h.1 (by rw [hb, ← hceq]; exact List.mem_map_of_mem Book.id hc)
    · simp only [deleteOneById, hb, if_false, findOne]
      exact ih h.2

/-! ## Helper lemmas about sorting -/

theorem mem_insertByRatingDesc {b x : Book} {l : List Book}
    (hx : x ∈ insertByRatingDesc b l) : x = b ∨ x ∈ l := by
  induction l with
  | nil => simpa [insertByRatingDesc] using hx
  | cons c cs ih =>
    by_cases hc : c.averageRating < b.averageRating
    · simp only [insertByRatingDesc, hc, if_true] at hx
      rcases List.mem_cons.1 hx with rfl | hx2
      · exact Or.inl rfl
      · exact Or.inr hx2
    · simp only [insertByRatingDesc, hc, if_false] at hx
      rcases List.mem_cons.1 hx with rfl | hx2
      · exact Or.inr (by simp)
      · rcases ih hx2 with h2 | h2
        · exact Or.inl h2
        · exact Or.inr (by simp [h2])

theorem pairwise_insertByRatingDesc {b : Book} {l : List Book}
    (hl : l.Pairwise (fun a c => c.averageRating ≤ a.averageRating)) :
    (insertByRatingDesc b l).Pairwise (fun a c => c.averageRating ≤ a.averageRating) := by
  induction l with
  | nil => simp [insertByRatingDesc]
  | cons c cs ih =>
    rw [List.pairwise_cons] at hl
    by_cases hc : c.averageRating < b.averageRating
    · simp only [insertByRatingDesc, hc, if_true]
      rw [List.pairwise_cons]
      refine ⟨?_, List.pairwise_cons.2 hl⟩
      intro x hx
      rcases List.mem_cons.1 hx with rfl | hx2
      · exact le_of_lt hc
      · exact le_trans (hl.1 x hx2) (le_of_lt hc)
    · simp only [insertByRatingDesc, hc, if_false]
      rw [List.pairwise_cons]
      refine ⟨?_, ih hl.2⟩
      intro x hx
      rcases mem_insertByRatingDesc hx with rfl | hx2
      · exact le_of_not_lt hc
      · exact hl.1 x hx2

theorem pairwise_sortByRatingDesc (s : List Book) :
    (sortByRatingDesc s).Pairwise (fun a c => c.averageRating ≤ a.averageRating) := by
  induction s with
  | nil => simp [sortByRatingDesc]
  | cons b rest ih =>
    simp only [sortByRatingDesc, List.foldr_cons]
    exact pairwise_insertByRatingDesc ih

/-! ## Claims -/

/-- C9: a rating request whose body lacks the `rating` field entirely
fails with 400 uniformly in the store — the store is never consulted
and is returned unchanged, so the failure precedes any book lookup. -/
theorem C9_missing_rating_field (store : List Book) (requesterId bookId : String) :
    rateBook store requesterId bookId none = ⟨400, none, store⟩ := rfl

/-- C10: an update request without an image file whose `book` form field
does not parse as JSON is not rejected with 400: the raw request body
becomes the update document and the store update proceeds. -/
theorem C10_update_raw_body_fallback (store : List Book) (requesterId bookId : String)
    (imgProcessFails : Bool) (rawBody : UpdateDoc) (newImageUrl : String) :
    putBook store requesterId bookId false imgProcessFails none rawBody newImageUrl =
      (let r := updateOne store bookId requesterId rawBody
       if r.1 = 0 then ⟨403, r.2⟩ else ⟨200, r.2⟩) ∧
    (putBook store requesterId bookId false imgProcessFails none rawBody newImageUrl).status ≠ 400 := by
  refine ⟨rfl, ?_⟩
  by_cases h : (updateOne store bookId requesterId rawBody).1 = 0 <;>
    simp [putBook, h]

/-- C6: `topRated` with limit 3 returns at most 3 books, sorted by
`averageRating` in descending order. -/
theorem C6_topRated_sorted (store : List Book) :
    (topRated store 3).length ≤ 3 ∧
    (topRated store 3).Pairwise (fun a c => c.averageRating ≤ a.averageRating) := by
  refine ⟨?_, ?_⟩
  · exact List.length_take_le 3 (sortByRatingDesc store)
  · exact (pairwise_sortByRatingDesc store).sublist (List.take_sublist 3 _)

/-- C5 counterexample: when no user matches the supplied email, the
login route responds 401 (an UnauthorizedError status), not the 404 a
NotFoundError would map to, so the claim as stated fails. -/
theorem C5_login_counterexample :
    (login [] (fun p h => p == h) "a@b.c" "pw" 0).1 = 401 ∧
    (login [] (fun p h => p == h) "a@b.c" "pw" 0).1 ≠ 404 := by
  exact ⟨rfl, by decide⟩

/-- C5 (amended): a login with an email matching no user fails with 401
(UnauthorizedError), a matching user but failing password comparison
also fails with 401, and a successful login returns the userId and a
signed token whose expiry is 24 hours after issuance. -/
theorem C5_login_amended (users : List User) (bcryptCompare : String → String → Bool)
    (email password : String) (now : Nat) :
    (findUser users email = none →
      login users bcryptCompare email password now = (401, .message "User not found!")) ∧
    (∀ u, findUser users email = some u → bcryptCompare password u.password = false →
      login users bcryptCompare email password now = (401, .message "Incorrect password!")) ∧
    (∀ u, findUser users email = some u → bcryptCompare password u.password = true →
      login users bcryptCompare email password now =
        (200, .success u.id ⟨u.id, now, now + 24 * 60 * 60⟩)) := by
  refine ⟨?_, ?_, ?_⟩
  · intro h; simp [login, h]
  · intro u hu hc; simp [login, hu, hc]
  · intro u hu hc; simp [login, hu, hc, jwtSign]

/-- Concrete instance of the amended C5: one stored user, a comparison
that accepts, and the resulting 200 response with the 24-hour token. -/
theorem C5_login_amended_witness :
    login [⟨"u1", "a@b.c", "h1"⟩] (fun _ _ => true) "a@b.c" "pw" 5 =
      (200, .success "u1" ⟨"u1", 5, 5 + 24 * 60 * 60⟩) :=
  (C5_login_amended [⟨"u1", "a@b.c", "h1"⟩] (fun _ _ => true) "a@b.c" "pw" 5).2.2
    ⟨"u1", "a@b.c", "h1"⟩ (by decide) rfl

/-- C7: a rate call with a grade outside [0,5] fails with 400 and leaves
the store unchanged; a rate call with an in-range grade on an absent
book fails with 404 and leaves the store unchanged. -/
theorem C7_rate_error_cases (store : List Book) (requesterId bookId : String) (g : Rat) :
    ((g < 0 ∨ g > 5) → rateBook store requesterId bookId (some g) = ⟨400, none, store⟩) ∧
    (0 ≤ g → g ≤ 5 → findOne store bookId = none →
      rateBook store requesterId bookId (some g) = ⟨404, none, store⟩) := by
  constructor
  · intro h; simp [rateBook, h]
  · intro h0 h5 hf
    have hng : ¬(g < 0 ∨ g > 5) := by push_neg; exact ⟨h0, h5⟩
    simp [rateBook, hng, hf]

/-- Concrete instance of C7: grade 6 gives 400, grade 3 on an empty
store gives 404. -/
theorem C7_rate_error_cases_witness :
    rateBook [] "u1" "b1" (some 6) = ⟨400, none, []⟩ ∧
    rateBook [] "u1" "b1" (some 3) = ⟨404, none, []⟩ :=
  ⟨(C7_rate_error_cases [] "u1" "b1" 6).1 (Or.inr (by norm_num)),
   (C7_rate_error_cases [] "u1" "b1" 3).2 (by norm_num) (by norm_num) rfl⟩

/-- C3: a rating by a user who already has an entry in the book's
ratings fails with 403 and the store — hence the book's ratings array
and its length — is returned unchanged. -/
theorem C3_second_rating_forbidden (store : List Book) (requesterId bookId : String)
    (g : Rat) (b : Book)
    (h0 : 0 ≤ g) (h5 : g ≤ 5)
    (hfind : findOne store bookId = some b)
    (hdup : ∃ r ∈ b.ratings, r.userId = requesterId) :
    rateBook store requesterId bookId (some g) = ⟨403, none, store⟩ := by
  have hng : ¬(g < 0 ∨ g > 5) := by push_neg; exact ⟨h0, h5⟩
  obtain ⟨x, hx⟩ := findRatingBy_isSome hdup
  simp [rateBook, hng, hfind, hx]

/-- Concrete instance of C3: `u1` already rated `b1`, so a second rating
by `u1` yields 403 with the store unchanged. -/
theorem C3_second_rating_forbidden_witness :
    rateBook [sampleRatedBook] "u1" "b1" (some 5) = ⟨403, none, [sampleRatedBook]⟩ :=
  C3_second_rating_forbidden [sampleRatedBook] "u1" "b1" 5 sampleRatedBook
    (by norm_num) (by norm_num) (by decide) (by decide)

/-- C4: a rate call on an existing book by a requester without a prior
rating on it and a grade in [0,5] succeeds with 200: it appends
`{requesterId, grade}` to the ratings, recomputes `averageRating` as
the mean of all grades (the returned book satisfies the mean
invariant), persists the updated document in the store and returns it. -/
theorem C4_rate_success (store : List Book) (requesterId bookId : String)
    (g : Rat) (b : Book)
    (h0 : 0 ≤ g) (h5 : g ≤ 5)
    (hfind : findOne store bookId = some b)
    (hnew : ∀ r ∈ b.ratings, r.userId ≠ requesterId) :
    rateBook store requesterId bookId (some g) =
      ⟨200, some (updatedBook b requesterId g),
        replaceFirst store b.id (updatedBook b requesterId g)⟩ ∧
    (updatedBook b requesterId g).ratings = b.ratings ++ [⟨requesterId, g⟩] ∧
    ratingInvariant (updatedBook b requesterId g) := by
  have hng : ¬(g < 0 ∨ g > 5) := by push_neg; exact ⟨h0, h5⟩
  have hnone := findRatingBy_eq_none hnew
  refine ⟨?_, rfl, ?_⟩
  · simp only [rateBook, if_neg hng, hfind, hnone, updatedBook]
  · have hne : (b.ratings ++ [(⟨requesterId, g⟩ : Rating)]).isEmpty = false := by
      cases b.ratings <;> simp
    simp only [ratingInvariant, updatedBook, hne, Bool.false_eq_true, if_false]

/-- Concrete instance of C4: `u2` rates `b1` (already rated by `u1`)
with grade 5; the call succeeds and persists the updated book. -/
theorem C4_rate_success_witness :
    rateBook [sampleRatedBook] "u2" "b1" (some 5) =
      ⟨200, some (updatedBook sampleRatedBook "u2" 5),
        replaceFirst [sampleRatedBook] "b1" (updatedBook sampleRatedBook "u2" 5)⟩ ∧
    ratingInvariant (updatedBook sampleRatedBook "u2" 5) := by
  have h := C4_rate_success [sampleRatedBook] "u2" "b1" 5 sampleRatedBook
    (by norm_num) (by norm_num) (by decide) (by decide)
  exact ⟨h.1, h.2.2⟩

/-- C2: when no stored book carries both the requested id and the
requester as owner (the book is absent or the requester is not its
owner), an update request that passes input validation and a delete
request both fail with 403 — the same denial for both causes — and
every stored book and the image directory are returned unchanged. -/
theorem C2_update_delete_forbidden (store : List Book) (files : List String)
    (requesterId bookId : String) (hasFile imgProcessFails imgUnlinkFails : Bool)
    (parsedBook : Option UpdateDoc) (rawBody : UpdateDoc) (newImageUrl : String)
    (hdenied : ∀ b ∈ store, ¬(b.id = bookId ∧ b.userId = requesterId))
    (hvalid : hasFile = true → parsedBook.isSome = true ∧ imgProcessFails = false) :
    putBook store requesterId bookId hasFile imgProcessFails parsedBook rawBody newImageUrl
      = ⟨403, store⟩ ∧
    deleteBook store files requesterId bookId false imgUnlinkFails = ⟨403, store, files⟩ := by
  constructor
  · cases hasFile with
    | false => simp [putBook, updateOne_no_match hdenied]
    | true =>
      obtain ⟨hsome, himg⟩ := hvalid rfl
      obtain ⟨d, hd⟩ := Option.isSome_iff_exists.1 hsome
      subst hd
      simp [putBook, himg, updateOne_no_match hdenied]
  · simp [deleteBook, findOwned_eq_none hdenied]

/-- Concrete instance of C2: `u2` is not the owner of `b1` (owned by
`u0`), so both an update and a delete by `u2` give 403 and change
nothing. -/
theorem C2_update_delete_forbidden_witness :
    putBook [sampleRatedBook] "u2" "b1" false false none {} "" = ⟨403, [sampleRatedBook]⟩ ∧
    deleteBook [sampleRatedBook] ["f.jpg"] "u2" "b1" false false
      = ⟨403, [sampleRatedBook], ["f.jpg"]⟩ :=
  C2_update_delete_forbidden [sampleRatedBook] ["f.jpg"] "u2" "b1" false false false
    none {} "" (by decide) (by decide)

/-- C8: a delete by the owner of an existing book with no transaction
failure succeeds with 200 and removes the record — a subsequent get of
that id finds nothing — while the image deletion is best-effort: the
file is erased when the unlink succeeds, and an unlink failure changes
neither the status nor the store (it is only logged, with no rollback
of the record deletion); a transaction failure instead yields 500 with
both the store and the image directory unchanged. -/
theorem C8_delete_success (store : List Book) (files : List String)
    (requesterId bookId : String) (imgUnlinkFails : Bool) (b : Book)
    (hown : findOwned store bookId requesterId = some b)
    (hnodup : (store.map Book.id).Nodup) :
    deleteBook store files requesterId bookId false imgUnlinkFails =
      ⟨200, deleteOneById store bookId,
        match imageFilename b.imageUrl with
        | none => files
        | some f => if imgUnlinkFails then files else files.erase f⟩ ∧
    getBook (deleteBook store files requesterId bookId false imgUnlinkFails).store bookId
      = (404, none) ∧
    deleteBook store files requesterId bookId true imgUnlinkFails = ⟨500, store, files⟩ := by
  have h1 : deleteBook store files requesterId bookId false imgUnlinkFails =
      ⟨200, deleteOneById store bookId,
        match imageFilename b.imageUrl with
        | none => files
        | some f => if imgUnlinkFails then files else files.erase f⟩ := by
    simp only [deleteBook, Bool.false_eq_true, if_false, hown]
  refine ⟨h1, ?_, rfl⟩
  rw [h1]
  simp [getBook, findOne_deleteOneById hnodup]

/-- Concrete instance of C8: `u0` deletes its own book `b1`; the record
and the stored image `f.jpg` are both gone and the subsequent get
finds nothing. -/
theorem C8_delete_success_witness :
    deleteBook [sampleRatedBook] ["f.jpg"] "u0" "b1" false false = ⟨200, [], []⟩ ∧
    getBook [] "b1" = (404, none) := by
  have h := C8_delete_success [sampleRatedBook] ["f.jpg"] "u0" "b1" false sampleRatedBook
    (by decide) (by decide)
  exact ⟨h.1, h.2.1⟩

/-- A rate call preserves the mean invariant for every stored book: the
rated book's average is recomputed from all grades, the others are
untouched. -/
theorem rateBook_storeInv {store : List Book} {requesterId bookId : String}
    {rating : Option Rat} (hstore : storeInv store) :
    storeInv (rateBook store requesterId bookId rating).store := by
  cases rating with
  | none => exact hstore
  | some g =>
    by_cases hg : g < 0 ∨ g > 5
    · simp only [rateBook, if_pos hg]
      exact hstore
    · cases hfind : findOne store bookId with
      | none =>
        simp only [rateBook, if_neg hg, hfind]
        exact hstore
      | some book =>
        cases hdup : findRatingBy book.ratings requesterId with
        | some r =>
          simp only [rateBook, if_neg hg, hfind, hdup]
          exact hstore
        | none =>
          simp only [rateBook, if_neg hg, hfind, hdup]
          intro x hx
          rcases mem_replaceFirst hx with rfl | hx2
          · have hne : (book.ratings ++ [(⟨requesterId, g⟩ : Rating)]).isEmpty = false := by
              cases book.ratings <;> simp
            simp only [ratingInvariant, hne, Bool.false_eq_true, if_false]
          · exact hstore x hx2

/-- An update whose effective update document supplies neither `ratings`
nor `averageRating` preserves the mean invariant for every stored
book. -/
theorem putBook_storeInv {store : List Book} {requesterId bookId : String}
    {hasFile imgProcessFails : Bool} {parsedBook : Option UpdateDoc}
    {rawBody : UpdateDoc} {newImageUrl : String}
    (hstore : storeInv store)
    (hparsed : ∀ doc, parsedBook = some doc → doc.ratings = none ∧ doc.averageRating = none)
    (hraw : rawBody.ratings = none ∧ rawBody.averageRating = none) :
    storeInv (putBook store requesterId bookId hasFile imgProcessFails
      parsedBook rawBody newImageUrl).store := by
  have hup : ∀ doc : UpdateDoc, doc.ratings = none → doc.averageRating = none →
      storeInv (updateOne store bookId requesterId doc).2 := by
    intro doc h1 h2 x hx
    rcases mem_updateOne_snd hx with hx2 | ⟨b, hb, rfl⟩
    · exact hstore x hx2
    · exact applyUpdate_ratingInvariant (hstore b hb) h1 h2
  cases hasFile with
  | false =>
    cases parsedBook with
    | none =>
      have := hup rawBody hraw.1 hraw.2
      by_cases hz : (updateOne store bookId requesterId rawBody).1 = 0 <;>
        simpa [putBook, hz] using this
    | some d =>
      obtain ⟨h1, h2⟩ := hparsed d rfl
      have := hup d h1 h2
      by_cases hz : (updateOne store bookId requesterId d).1 = 0 <;>
        simpa [putBook, hz] using this
  | true =>
    cases parsedBook with
    | none =>
      simpa [putBook] using hstore
    | some d =>
      obtain ⟨h1, h2⟩ := hparsed d rfl
      cases imgProcessFails with
      | true => simpa [putBook] using hstore
      | false =>
        have := hup { d with imageUrl := some newImageUrl } h1 h2
        by_cases hz :
            (updateOne store bookId requesterId { d with imageUrl := some newImageUrl }).1 = 0 <;>
          simpa [putBook, hz] using this

/-- C1 counterexample: starting from a store holding one freshly created
book (empty ratings, averageRating 0), an update request whose
document supplies `averageRating: 7` succeeds with 200 and leaves a
stored book with averageRating 7 but no ratings — the mean invariant
does not survive every update, because the route merges whatever
fields the client supplies. -/
theorem C1_average_invariant_counterexample :
    (putBook [createBook "u1" "b1" ⟨"t", "a", "g", 2000⟩ ""] "u1" "b1"
      false false (some { averageRating := some 7 }) {} "").status = 200 ∧
    ∃ b ∈ (putBook [createBook "u1" "b1" ⟨"t", "a", "g", 2000⟩ ""] "u1" "b1"
      false false (some { averageRating := some 7 }) {} "").store,
      ¬ ratingInvariant b := by
  decide

/-- C1 (amended): the mean invariant (`averageRating` is the arithmetic
mean of `ratings[].grade`, or 0 when `ratings` is empty) holds for a
freshly created book and is preserved across every rate call; an
update preserves it provided the effective update document supplies
neither `ratings` nor `averageRating` — the route merges the supplied
fields verbatim, so a document supplying those fields can break it. -/
theorem C1_average_invariant_amended (store : List Book)
    (uid bid : String) (d : BookDetails) (url : String)
    (requesterId bookId : String) (rating : Option Rat)
    (updaterId targetId : String)
    (hasFile imgProcessFails : Bool) (parsedBook : Option UpdateDoc)
    (rawBody : UpdateDoc) (newImageUrl : String)
    (hstore : storeInv store)
    (hparsed : ∀ doc, parsedBook = some doc → doc.ratings = none ∧ doc.averageRating = none)
    (hraw : rawBody.ratings = none ∧ rawBody.averageRating = none) :
    ratingInvariant (createBook uid bid d url) ∧
    storeInv (rateBook store requesterId bookId rating).store ∧
    storeInv (putBook store updaterId targetId hasFile imgProcessFails
      parsedBook rawBody newImageUrl).store := by
  refine ⟨?_, rateBook_storeInv hstore, putBook_storeInv hstore hparsed hraw⟩
  simp [ratingInvariant, createBook]

/-- Concrete instance of the amended C1: a one-book store satisfying the
invariant still satisfies it after a rate call by `u2` and after an
owner update that only changes the title. -/
theorem C1_average_invariant_amended_witness :
    ratingInvariant (createBook "u1" "b1" ⟨"t", "a", "g", 2000⟩ "") ∧
    storeInv (rateBook [createBook "u1" "b1" ⟨"t", "a", "g", 2000⟩ ""]
      "u2" "b1" (some 4)).store ∧
    storeInv (putBook [createBook "u1" "b1" ⟨"t", "a", "g", 2000⟩ ""]
      "u1" "b1" false false none { title := some "t2" } "").store :=
  C1_average_invariant_amended [createBook "u1" "b1" ⟨"t", "a", "g", 2000⟩ ""]
    "u1" "b1" ⟨"t", "a", "g", 2000⟩ "" "u2" "b1" (some 4) "u1" "b1" false false none
    { title := some "t2" } "" (by decide) (fun doc h => by cases h) ⟨rfl, rfl⟩

end BookApi
